import Mathlib

/-!
Verification development for the `sse` package (an SSE client in Go):
a shallow embedding of the event decoder (`readEvent`), the frame
segmenter (`eventScannerFunc` driven by a `bufio.Scanner`-style loop),
and the stream-session lifecycle from `client.go`, together with
theorems settling the specification claims.

Byte strings are modelled as `List Nat` (one `Nat` per byte).
-/

/-- Byte value of `'\n'` (LF). -/
def lfByte : Nat := 10

/-- Byte value of `'\r'` (CR). -/
def crByte : Nat := 13

/-- Byte value of `':'`. -/
def colonByte : Nat := 58

/-- Byte value of `' '` (space). -/
def spaceByte : Nat := 32

/-- The predicate passed to `bytes.FieldsFunc` in `readEvent`:
`func(r rune) bool { return r == '\n' || r == '\r' }`.  Both separator
characters are ASCII, so rune-level and byte-level splitting coincide. -/
def isNewline (b : Nat) : Bool := b == lfByte || b == crByte

/-- `bytes.FieldsFunc(data, isNewline)`: split into the maximal runs of
non-separator bytes, dropping the empty subsequences produced by
consecutive separators.  `cur` accumulates the current run in reverse. -/
def fieldsFuncAux (cur : List Nat) : List Nat → List (List Nat)
  | [] => if cur.isEmpty then [] else [cur.reverse]
  | b :: rest =>
    if isNewline b then
      if cur.isEmpty then fieldsFuncAux [] rest
      else cur.reverse :: fieldsFuncAux [] rest
    else fieldsFuncAux (b :: cur) rest

/-- The list of lines `readEvent` iterates over for a frame. -/
def frameLines (data : List Nat) : List (List Nat) := fieldsFuncAux [] data

/-- The decoded event (`Event` struct: `LastEventID`, `Type`, `Data`). -/
structure Event where
  lastEventID : List Nat
  type : List Nat
  data : List Nat
deriving Repr, DecidableEq

/-- The constant `eventTypeEvent = "event"`. -/
def eventTypeEvent : List Nat := [101, 118, 101, 110, 116]

/-- The constant `eventTypeData = "data"`. -/
def eventTypeData : List Nat := [100, 97, 116, 97]

/-- The constant `eventTypeID = "id"`. -/
def eventTypeID : List Nat := [105, 100]

/-- The constant `eventTypeRetry = "retry"`. -/
def eventTypeRetry : List Nat := [114, 101, 116, 114, 121]

/-- Field/value extraction for one non-comment line, as in `readEvent`:
if the line contains `':'`, `bytes.Split` it on `':'`, take segment 0 as
the field and segment 1 as the value (so a value containing a further
`':'` is truncated at it), and strip at most one leading space from the
value via `bytes.TrimPrefix(value, " ")`; otherwise the whole line is
the field and the value is empty. -/
def parseFieldValue (line : List Nat) : List Nat × List Nat :=
  if line.contains colonByte then
    let parts := line.splitOn colonByte
    let v := parts.getD 1 []
    (parts.getD 0 [], if v.head? = some spaceByte then v.tail else v)
  else (line, [])

/-- One iteration of `readEvent`'s loop body on a single line: skip
comment lines (leading `':'`, via `bytes.HasPrefix`), otherwise parse
field/value and dispatch on the field name exactly as the Go `switch`
does — `event` sets `Type`, `data` assigns `value ++ "\n"` to `Data`
(an overwrite: `event.Data = append(value, "\n"...)`), `id` sets
`LastEventID` only when the value has no NUL byte, `retry` and unknown
fields are ignored. -/
def processLine (ev : Event) (line : List Nat) : Event :=
  if line.head? = some colonByte then ev
  else
    let fv := parseFieldValue line
    if fv.1 = eventTypeEvent then { ev with type := fv.2 }
    else if fv.1 = eventTypeData then { ev with data := fv.2 ++ [lfByte] }
    else if fv.1 = eventTypeID then
      if fv.2.contains 0 then ev else { ev with lastEventID := fv.2 }
    else ev

/-- `bytes.TrimSuffix(buf, "\n")`: remove one trailing LF if present. -/
def trimSuffixLF (l : List Nat) : List Nat :=
  if l.getLast? = some lfByte then l.dropLast else l

/-- `readEvent(data []byte) (*Event, error)`.  Empty input returns the
error `"data is empty"`; otherwise the frame is split into lines (the
source's preceding `bytes.Replace(data, "\n\r", "\n", -1)` call discards
its result, so it has no effect and is not modelled), each line is
processed in order, and finally one trailing LF is trimmed from the
accumulated `Data` buffer. -/
def readEvent (data : List Nat) : Except String Event :=
  if data.length < 1 then .error "data is empty"
  else
    let ev := (frameLines data).foldl processLine ⟨[], [], []⟩
    .ok { ev with data := trimSuffixLF ev.data }

/-- `bytes.Index(l, pat)` for a non-empty pattern: the lowest offset at
which `pat` occurs as a contiguous subsequence of `l`, or `none` when it
does not occur (Go returns `-1` there). -/
def indexOfSublist (pat : List Nat) : List Nat → Option Nat
  | [] => if pat.isPrefixOf ([] : List Nat) then some 0 else none
  | b :: rest =>
    if pat.isPrefixOf (b :: rest) then some 0
    else (indexOfSublist pat rest).map (· + 1)

/-- The boundary pattern `"\r\n\r\n"`. -/
def crlfcrlf : List Nat := [crByte, lfByte, crByte, lfByte]

/-- The boundary pattern `"\n\n"`. -/
def lflf : List Nat := [lfByte, lfByte]

/-- The boundary pattern `"\r\r"`. -/
def crcr : List Nat := [crByte, crByte]

/-- `eventScannerFunc(data, atEOF) (advance, token, err)` — the
`bufio.SplitFunc` of the segmenter (it never returns a non-nil error, so
the error result is dropped).  At EOF an empty buffer ends the scan and
a non-empty buffer is returned whole; otherwise the three boundary
patterns are tried in order `"\r\n\r\n"`, `"\n\n"`, `"\r\r"` via
`bytes.Index`, and the first pattern found yields the token
`data[0:i]` with advance `i + 1`. -/
def eventScannerFunc (data : List Nat) (atEOF : Bool) : Nat × Option (List Nat) :=
  if atEOF && data.length == 0 then (0, none)
  else if atEOF then (data.length, some data)
  else
    match indexOfSublist crlfcrlf data with
    | some i => (i + 1, some (data.take i))
    | none =>
      match indexOfSublist lflf data with
      | some i => (i + 1, some (data.take i))
      | none =>
        match indexOfSublist crcr data with
        | some i => (i + 1, some (data.take i))
        | none => (0, none)

/-- Fuelled driver loop modelling `bufio.Scanner`'s documented protocol
over `eventScannerFunc`, for a source whose whole content is buffered
and whose exhaustion is signalled by a read returning no bytes: while
the split function produces a token pre-EOF, emit it and drop `advance`
bytes; once it asks for more data, the source is exhausted, so the split
function is re-invoked with `atEOF = true` (one token when the remainder
is non-empty, then the empty remainder ends the scan).  Each pre-EOF
token has `advance ≥ 1`, so `buffer.length + 1` units of fuel always
suffice. -/
def scanFramesFuel : Nat → List Nat → List (List Nat)
  | 0, _ => []
  | fuel + 1, buffer =>
    match eventScannerFunc buffer false with
    | (adv, some tok) => tok :: scanFramesFuel fuel (buffer.drop adv)
    | (_, none) =>
      match eventScannerFunc buffer true with
      | (_, some tok) => [tok]
      | (_, none) => []

/-- All frames the segmenter yields for a fully buffered source followed
by exhaustion. -/
def scanFrames (buffer : List Nat) : List (List Nat) :=
  scanFramesFuel (buffer.length + 1) buffer

/-- `true` when none of the three boundary patterns occurs in `l`. -/
def noBoundary (l : List Nat) : Prop :=
  indexOfSublist crlfcrlf l = none ∧ indexOfSublist lflf l = none ∧
    indexOfSublist crcr l = none

/-- `pat` occurs in `l` starting at byte offset `i`. -/
def occursAt (pat l : List Nat) (i : Nat) : Prop := pat.isPrefixOf (l.drop i)

/-- `i` is the lowest byte offset at which `pat` occurs in `l`. -/
def firstOccurAt (pat l : List Nat) (i : Nat) : Prop :=
  occursAt pat l i ∧ ∀ j < i, ¬ occursAt pat l j

/-- The value the decoder's dispatch sees for one line when and only
when that line is a (non-comment) `data` field line. -/
def lineDataValue (line : List Nat) : Option (List Nat) :=
  if line.head? = some colonByte then none
  else if (parseFieldValue line).1 = eventTypeData then
    some (parseFieldValue line).2
  else none

/-- The value of the last `data` field line of a frame, if any. -/
def lastDataValue (frame : List Nat) : Option (List Nat) :=
  ((frameLines frame).filterMap lineDataValue).getLast?

/-- The transformation named by the decoder invariance claim: replace
every CRLF pair by a single LF, scanning left to right. -/
def replCRLF : List Nat → List Nat
  | [] => []
  | [b] => [b]
  | b :: c :: rest =>
    if b = crByte ∧ c = lfByte then lfByte :: replCRLF rest
    else b :: replCRLF (c :: rest)

/-- The transformation named by the decoder invariance claim: replace
every lone CR (one not starting a CRLF pair) by a single LF. -/
def replCR : List Nat → List Nat
  | [] => []
  | [b] => if b = crByte then [lfByte] else [b]
  | b :: c :: rest =>
    if b = crByte then
      if c = lfByte then crByte :: lfByte :: replCR rest
      else lfByte :: replCR (c :: rest)
    else b :: replCR (c :: rest)

/-- State of a session's stop channel (`chan bool`, unbuffered): whether
a `StopStream` caller is ready to send on it, and whether it has been
closed. -/
structure StopChState where
  senderReady : Bool
  closed : Bool

/-- Outcome of the stop check at the bottom of the `Stream` loop. -/
inductive StopCheckOutcome where
  | terminate
  | blocked
deriving Repr, DecidableEq

/-- The stop check the `Stream` goroutine runs after each frame:
`select { case <-c.currentlyStreaming[eventch]: return }`.  Per Go
semantics a `select` with no `default` clause blocks until one of its
communication cases can proceed; this `select` has the single case
`<-stopCh`, whose receive proceeds exactly when a sender is ready or
the channel is closed, and whose body is `return` (teardown).  There is
no case under which the check completes and falls through to the next
loop iteration. -/
def stopCheck (st : StopChState) : StopCheckOutcome :=
  if st.senderReady || st.closed then .terminate else .blocked

/-- Observable state of one `Stream` goroutine.  `resp` is the `resp`
variable (`none` = nil pointer, `some code` = a response with that
status code); `deferredRespArg` is the argument value captured for the
deferred `closeRespAndCurrStreamCh` call; `bodyCloses` counts calls to
`resp.Body.Close()`. -/
structure GoSessionState where
  resp : Option Nat
  deferredRespArg : Option Nat
  bodyCloses : Nat
  errsEmitted : Nat
  eventsEmitted : Nat
  enteredLoop : Bool
deriving Repr, DecidableEq

/-- Session state at the top of the goroutine: `var resp *http.Response`
leaves `resp` nil, nothing captured, sent, or closed yet. -/
def initSessionState : GoSessionState :=
  { resp := none, deferredRespArg := none, bodyCloses := 0
    errsEmitted := 0, eventsEmitted := 0, enteredLoop := false }

/-- `closeRespAndCurrStreamCh(resp, ch)` acting on its captured `resp`
argument: `if resp != nil { resp.Body.Close() }` (the registry
bookkeeping on `currentlyStreaming` touches no field modelled here). -/
def closeRespAndCurrStreamCh (s : GoSessionState) : GoSessionState :=
  match s.deferredRespArg with
  | none => s
  | some _ => { s with bodyCloses := s.bodyCloses + 1 }

/-- The `Stream` goroutine body up to (but not including) the scan loop
and the deferred call, for a given HTTP outcome — `none` when
`c.HTTPClient.Do(req)` returns an error, `some code` when it returns a
response with status `code`.  In source order: `var resp *http.Response`
(nil); `defer c.closeRespAndCurrStreamCh(resp, eventch)` — Go evaluates
a deferred call's arguments at the `defer` statement itself, so the
captured argument is `resp`'s value at this point; then
`resp, err := c.HTTPClient.Do(req)`; on `err != nil` send one error and
return; on `resp.StatusCode != 200` send one error and return;
otherwise fall through into the scan loop. -/
def streamPreLoop (httpResult : Option Nat) : GoSessionState :=
  let s := initSessionState
  let s := { s with deferredRespArg := s.resp }
  match httpResult with
  | none => { s with errsEmitted := s.errsEmitted + 1 }
  | some code =>
    let s := { s with resp := some code }
    if code ≠ 200 then { s with errsEmitted := s.errsEmitted + 1 }
    else { s with enteredLoop := true }

/-- Contribution of the scan loop to the session state: when the loop
was entered it emits some number of events and at most one terminal
error, but its body never assigns `resp`, never revisits the already
captured deferred argument, and never calls `Body.Close`; when the
goroutine returned before the loop, the loop contributes nothing. -/
def afterScanLoop (s : GoSessionState) (events errs : Nat) : GoSessionState :=
  if s.enteredLoop then
    { s with eventsEmitted := s.eventsEmitted + events
             errsEmitted := s.errsEmitted + errs }
  else s

/-- The session state after teardown on any exit path: the pre-loop
part, the loop's contribution, then the deferred
`closeRespAndCurrStreamCh` call, which runs exactly once when the
goroutine returns. -/
def sessionAtTeardown (httpResult : Option Nat) (events errs : Nat) :
    GoSessionState :=
  closeRespAndCurrStreamCh (afterScanLoop (streamPreLoop httpResult) events errs)

-- Sanity checks mirroring `Test_readEvent`.
example :
    readEvent ((String.toList "event: update\ndata: this is some test data hello, world\n").map Char.toNat) =
      .ok ⟨[], (String.toList "update").map Char.toNat,
        (String.toList "this is some test data hello, world").map Char.toNat⟩ := rfl

example :
    readEvent ((String.toList ": keep-alive\n: keep-alive\nevent: add\n: keep-alive\ndata:testing 1,2,3\nid: 65\n: keep-alive\n").map Char.toNat) =
      .ok ⟨(String.toList "65").map Char.toNat, (String.toList "add").map Char.toNat,
        (String.toList "testing 1,2,3").map Char.toNat⟩ := rfl

example :
    readEvent ((String.toList ": keep-alive\ndata\n").map Char.toNat) = .ok ⟨[], [], []⟩ := rfl

example : readEvent [] = .error "data is empty" := rfl

-- Segmenter sanity checks ("a\r\n\r\nb", "a\n\nb", "a\r\rb").
example : scanFrames [97, 13, 10, 13, 10, 98] = [[97], [10, 13, 10, 98]] := rfl
example : scanFrames [97, 10, 10, 98] = [[97], [10, 98]] := rfl
example : scanFrames [97, 13, 13, 98] = [[97], [13, 98]] := rfl

/-- C2: the claim that each of `"a\r\n\r\nb"`, `"a\n\nb"`, `"a\r\rb"`
segments into the frames `"a"` then `"b"` is false: the advance of
`i + 1` consumes only one byte of the boundary, so the final frames keep
leftover terminator bytes. -/
theorem c2_counterexample :
    ¬ (scanFrames [97, 13, 10, 13, 10, 98] = [[97], [98]] ∧
       scanFrames [97, 10, 10, 98] = [[97], [98]] ∧
       scanFrames [97, 13, 13, 98] = [[97], [98]]) := by
  decide

/-- C2 (amended): each of the three inputs yields first frame `"a"`,
then a final frame that still carries the unconsumed tail of the
boundary, because the boundary advance is `i + 1` — one byte past the
start of the boundary (for CRLF CRLF, past the first CR only): the
final frames are `"\n\r\nb"`, `"\nb"` and `"\rb"` respectively. -/
theorem c2_amended :
    scanFrames [97, 13, 10, 13, 10, 98] = [[97], [10, 13, 10, 98]] ∧
    scanFrames [97, 10, 10, 98] = [[97], [10, 98]] ∧
    scanFrames [97, 13, 13, 98] = [[97], [13, 98]] := by
  decide

/-- C4: decoding a frame fails exactly on the zero-length input, with
the empty-input error; every non-empty frame decodes to an event with
no error. -/
theorem c4_decode_fails_iff_empty (l : List Nat) :
    (l = [] → readEvent l = .error "data is empty") ∧
    (l ≠ [] → ∃ ev, readEvent l = .ok ev) := by
  constructor
  · rintro rfl
    rfl
  · intro h
    have hlen : ¬ l.length < 1 := by
      cases l with
      | nil => exact absurd rfl h
      | cons a t => simp
    exact ⟨_, by simp only [readEvent, if_neg hlen]; rfl⟩

/-- Witness for C4 at the empty frame and the frame `"a"`. -/
theorem c4_witness :
    readEvent [] = .error "data is empty" ∧ ∃ ev, readEvent [97] = .ok ev :=
  ⟨(c4_decode_fails_iff_empty []).1 rfl, (c4_decode_fails_iff_empty [97]).2 (by decide)⟩

/-- C5: an `id` field line sets `LastEventID` to the value exactly when
the value has no NUL byte, touching nothing else; with a NUL the field
is ignored and the previous id survives — in particular the frame
`"id: 65\nid: \x00bad\n"` decodes with `LastEventID = "65"`. -/
theorem c5_id_nul_guard :
    (∀ (ev : Event) (line v : List Nat),
        line.head? ≠ some colonByte → parseFieldValue line = (eventTypeID, v) →
        (processLine ev line).lastEventID =
          (if v.contains 0 then ev.lastEventID else v) ∧
        (processLine ev line).type = ev.type ∧
        (processLine ev line).data = ev.data) ∧
    readEvent [105, 100, 58, 32, 54, 53, 10, 105, 100, 58, 32, 0, 98, 97, 100, 10] =
      .ok ⟨[54, 53], [], []⟩ := by
  constructor
  · intro ev line v hhead hfv
    have h1 : eventTypeID ≠ eventTypeEvent := by decide
    have h2 : eventTypeID ≠ eventTypeData := by decide
    simp only [processLine, hfv, if_neg hhead, if_neg h1, if_neg h2, if_pos rfl]
    by_cases hc : (0 : Nat) ∈ v <;> simp [hc]
  · rfl

/-- Witness for C5: the second `id` line of the example frame, whose
value contains NUL, leaves the previously set id `"65"` unchanged. -/
theorem c5_witness :
    (processLine ⟨[54, 53], [], []⟩ [105, 100, 58, 32, 0, 98, 97, 100]).lastEventID =
      [54, 53] := by
  have h := c5_id_nul_guard.1 ⟨[54, 53], [], []⟩ [105, 100, 58, 32, 0, 98, 97, 100]
    [0, 98, 97, 100] (by decide) (by decide)
  rw [h.1]
  decide

/-- C7: the stop check is a `select` with a single receive case and no
`default`, so with no stop request pending (no ready sender, channel
open) it does not complete — it blocks; the session only proceeds past
it by terminating when a stop is delivered. -/
theorem c7_stop_check_blocks :
    stopCheck ⟨false, false⟩ = .blocked ∧
    stopCheck ⟨true, false⟩ = .terminate := by
  decide

/-- C8: the deferred `closeRespAndCurrStreamCh(resp, eventch)` call
captured `resp` while it was still nil, so on every exit path — for
every HTTP outcome and every number of events and errors the scan loop
contributes — the teardown performs zero `Body.Close` calls, even when a
response was obtained (e.g. status 404). -/
theorem c8_body_never_closed :
    (streamPreLoop (some 404)).resp = some 404 ∧
    ∀ (httpResult : Option Nat) (events errs : Nat),
      (sessionAtTeardown httpResult events errs).bodyCloses = 0 := by
  constructor
  · rfl
  · intro httpResult events errs
    cases httpResult with
    | none => rfl
    | some code =>
      by_cases hc : code = 200 <;>
        simp [sessionAtTeardown, streamPreLoop, initSessionState, afterScanLoop,
          closeRespAndCurrStreamCh, hc]

/-- C9: the claim that a 2xx status such as 201 does not terminate the
session as a status error is false: the code tests `StatusCode != 200`,
so a 201 response terminates immediately with one error and no
events. -/
theorem c9_counterexample_201 :
    (200 ≤ 201 ∧ 201 < 300) ∧
    (streamPreLoop (some 201)).enteredLoop = false ∧
    (streamPreLoop (some 201)).errsEmitted = 1 ∧
    (streamPreLoop (some 201)).eventsEmitted = 0 := by
  decide

/-- C9 (amended): the session terminates immediately with exactly one
error and zero events exactly when the HTTP call fails or the status
code differs from 200; only a status of exactly 200 proceeds into the
scan loop (404 in particular yields one error and no events). -/
theorem c9_amended (code : Nat) :
    ((streamPreLoop none).errsEmitted = 1 ∧ (streamPreLoop none).eventsEmitted = 0 ∧
      (streamPreLoop none).enteredLoop = false) ∧
    (code ≠ 200 →
      (streamPreLoop (some code)).errsEmitted = 1 ∧
      (streamPreLoop (some code)).eventsEmitted = 0 ∧
      (streamPreLoop (some code)).enteredLoop = false) ∧
    ((streamPreLoop (some 200)).enteredLoop = true ∧
      (streamPreLoop (some 200)).errsEmitted = 0 ∧
      (streamPreLoop (some 200)).eventsEmitted = 0) := by
  refine ⟨by decide, ?_, by decide⟩
  intro h
  simp [streamPreLoop, initSessionState, h]

/-- Witness for C9 (amended) at status 404. -/
theorem c9_amended_witness :
    (streamPreLoop (some 404)).errsEmitted = 1 ∧
    (streamPreLoop (some 404)).eventsEmitted = 0 ∧
    (streamPreLoop (some 404)).enteredLoop = false :=
  (c9_amended 404).2.1 (by decide)

/-- C6: on a buffer containing no boundary pattern the split function
yields no token before EOF (it requests more bytes); at exhaustion a
non-empty remainder is emitted whole exactly once and an empty
remainder ends the sequence, so such an input produces at most one
frame, and only at exhaustion. -/
theorem c6_no_boundary_remainder (buffer : List Nat) (h : noBoundary buffer) :
    eventScannerFunc buffer false = (0, none) ∧
    eventScannerFunc buffer true =
      (if buffer.isEmpty then (0, none) else (buffer.length, some buffer)) ∧
    scanFrames buffer = (if buffer.isEmpty then [] else [buffer]) := by
  obtain ⟨h1, h2, h3⟩ := h
  have hfalse : eventScannerFunc buffer false = (0, none) := by
    simp [eventScannerFunc, h1, h2, h3]
  have htrue : eventScannerFunc buffer true =
      (if buffer.isEmpty then (0, none) else (buffer.length, some buffer)) := by
    cases buffer with
    | nil => rfl
    | cons b rest => simp [eventScannerFunc]
  refine ⟨hfalse, htrue, ?_⟩
  show scanFramesFuel (buffer.length + 1) buffer = _
  rw [scanFramesFuel, hfalse]
  cases buffer with
  | nil => rfl
  | cons b rest =>
    rw [htrue]
    simp

/-- Witness for C6 at the boundary-free buffer `"a\r\nb"`. -/
theorem c6_witness :
    eventScannerFunc [97, 13, 10, 98] false = (0, none) ∧
    eventScannerFunc [97, 13, 10, 98] true =
      (if ([97, 13, 10, 98] : List Nat).isEmpty then (0, none)
       else (([97, 13, 10, 98] : List Nat).length, some [97, 13, 10, 98])) ∧
    scanFrames [97, 13, 10, 98] =
      (if ([97, 13, 10, 98] : List Nat).isEmpty then [] else [[97, 13, 10, 98]]) :=
  c6_no_boundary_remainder [97, 13, 10, 98] (by unfold noBoundary; decide)

/-- Effect of one line on the accumulated data buffer: a (non-comment)
`data` field line overwrites it with `value ++ LF`; every other line
leaves it unchanged. -/
theorem processLine_data (ev : Event) (line : List Nat) :
    (processLine ev line).data =
      (match lineDataValue line with
       | some v => v ++ [lfByte]
       | none => ev.data) := by
  have hED : eventTypeEvent ≠ eventTypeData := by decide
  have hDE : eventTypeData ≠ eventTypeEvent := by decide
  have hIE : eventTypeID ≠ eventTypeEvent := by decide
  have hID : eventTypeID ≠ eventTypeData := by decide
  unfold processLine lineDataValue
  by_cases hc : line.head? = some colonByte
  · simp [hc]
  · by_cases h1 : (parseFieldValue line).1 = eventTypeEvent
    · simp [hc, h1, hED, hDE]
    · by_cases h2 : (parseFieldValue line).1 = eventTypeData
      · simp [hc, h1, h2, hDE]
      · by_cases h3 : (parseFieldValue line).1 = eventTypeID
        · by_cases h4 : (0 : Nat) ∈ (parseFieldValue line).2 <;>
            simp [hc, h1, h2, h3, h4, hIE, hID]
        · simp [hc, h1, h2, h3]

/-- The data buffer after folding the whole line list: the last `data`
line's value followed by LF, or the initial buffer when no `data` line
occurs. -/
theorem foldl_processLine_data (lines : List (List Nat)) :
    ∀ ev : Event,
      (lines.foldl processLine ev).data =
        (match (lines.filterMap lineDataValue).getLast? with
         | some v => v ++ [lfByte]
         | none => ev.data) := by
  induction lines with
  | nil => intro ev; rfl
  | cons line rest ih =>
    intro ev
    rw [List.foldl_cons, ih (processLine ev line)]
    cases hld : lineDataValue line with
    | none =>
      have hdata : (processLine ev line).data = ev.data := by
        rw [processLine_data, hld]
      simp only [List.filterMap_cons, hld]
      cases hrest : (rest.filterMap lineDataValue).getLast? with
      | none => simp [hdata]
      | some w => simp
    | some v =>
      simp only [List.filterMap_cons, hld]
      have hdata : (processLine ev line).data = v ++ [lfByte] := by
        rw [processLine_data, hld]
      cases hrest : rest.filterMap lineDataValue with
      | nil => simp [hrest, hdata]
      | cons w t =>
        rw [List.getLast?_cons_cons]
        cases hlast : (w :: t).getLast? with
        | none => simp at hlast
        | some u => simp [hrest, hlast]

/-- C1: each `data` line overwrites the accumulated buffer with its
value followed by one LF (last data line wins), and the final trim
removes exactly that trailing LF, so a non-empty frame whose last
`data` line has value `v` decodes to an event whose data is `v`. -/
theorem c1_data_last_wins :
    (∀ (ev : Event) (line v : List Nat), lineDataValue line = some v →
        (processLine ev line).data = v ++ [lfByte]) ∧
    (∀ (frame v : List Nat), frame ≠ [] → lastDataValue frame = some v →
        ∃ ev, readEvent frame = .ok ev ∧ ev.data = v) := by
  constructor
  · intro ev line v h
    rw [processLine_data, h]
  · intro frame v hne hv
    have hlen : ¬ frame.length < 1 := by
      cases frame with
      | nil => exact absurd rfl hne
      | cons a t => simp
    rw [lastDataValue] at hv
    have hd := foldl_processLine_data (frameLines frame) ⟨[], [], []⟩
    rw [hv] at hd
    refine ⟨_, by simp only [readEvent, if_neg hlen]; rfl, ?_⟩
    show trimSuffixLF ((frameLines frame).foldl processLine ⟨[], [], []⟩).data = v
    rw [hd]
    unfold trimSuffixLF
    rw [List.getLast?_concat, if_pos rfl, List.dropLast_concat]

/-- Witness for C1 at the frame `"data: a\ndata: b\n"`: only the last
`data` value `"b"` survives. -/
theorem c1_witness :
    ∃ ev,
      readEvent [100, 97, 116, 97, 58, 32, 97, 10, 100, 97, 116, 97, 58, 32, 98, 10] =
        .ok ev ∧ ev.data = [98] :=
  c1_data_last_wins.2 [100, 97, 116, 97, 58, 32, 97, 10, 100, 97, 116, 97, 58, 32, 98, 10]
    [98] (by decide) (by unfold lastDataValue; decide)

/-- `bytes.Index` semantics: for a non-empty pattern, `indexOfSublist`
returns `some i` exactly when `i` is the lowest offset at which the
pattern occurs. -/
theorem indexOfSublist_eq_some_iff (pat : List Nat) (hpat : pat ≠ []) :
    ∀ (l : List Nat) (i : Nat),
      indexOfSublist pat l = some i ↔ firstOccurAt pat l i := by
  intro l
  induction l with
  | nil =>
    intro i
    have hp : pat.isPrefixOf ([] : List Nat) = false := by
      cases pat with
      | nil => exact absurd rfl hpat
      | cons a t => rfl
    simp [indexOfSublist, hp, firstOccurAt, occursAt, List.drop_nil]
  | cons b rest ih =>
    intro i
    by_cases hp : pat.isPrefixOf (b :: rest)
    · rw [indexOfSublist, if_pos hp]
      constructor
      · intro h
        injection h with h
        subst h
        exact ⟨by simpa [occursAt, List.drop_zero] using hp,
          fun j hj => absurd hj (Nat.not_lt_zero j)⟩
      · rintro ⟨hocc, hmin⟩
        cases i with
        | zero => rfl
        | succ k =>
          exact absurd (show occursAt pat (b :: rest) 0 by
            simpa [occursAt, List.drop_zero] using hp) (hmin 0 (Nat.succ_pos k))
    · rw [indexOfSublist, if_neg hp]
      constructor
      · intro h
        cases hidx : indexOfSublist pat rest with
        | none => rw [hidx] at h; simp at h
        | some i' =>
          rw [hidx] at h
          simp only [Option.map_some'] at h
          injection h with h
          subst h
          obtain ⟨hocc, hmin⟩ := (ih i').mp hidx
          refine ⟨by simpa [occursAt, List.drop_succ_cons] using hocc, ?_⟩
          intro j hj
          cases j with
          | zero => simpa [occursAt, List.drop_zero] using hp
          | succ k =>
            have hk : k < i' := Nat.lt_of_succ_lt_succ hj
            simpa [occursAt, List.drop_succ_cons] using hmin k hk
      · rintro ⟨hocc, hmin⟩
        cases i with
        | zero =>
          exact absurd (by simpa [occursAt, List.drop_zero] using hocc) hp
        | succ k =>
          have hfo : firstOccurAt pat rest k := by
            refine ⟨by simpa [occursAt, List.drop_succ_cons] using hocc, ?_⟩
            intro j hj
            have := hmin (j + 1) (Nat.succ_lt_succ hj)
            simpa [occursAt, List.drop_succ_cons] using this
          rw [(ih k).mpr hfo]
          rfl

/-- `bytes.Index` semantics: for a non-empty pattern, `indexOfSublist`
returns `none` exactly when the pattern occurs nowhere. -/
theorem indexOfSublist_eq_none_iff (pat : List Nat) (hpat : pat ≠ []) :
    ∀ l : List Nat,
      indexOfSublist pat l = none ↔ ∀ j, ¬ occursAt pat l j := by
  intro l
  induction l with
  | nil =>
    have hp : pat.isPrefixOf ([] : List Nat) = false := by
      cases pat with
      | nil => exact absurd rfl hpat
      | cons a t => rfl
    simp [indexOfSublist, hp, occursAt, List.drop_nil]
  | cons b rest ih =>
    by_cases hp : pat.isPrefixOf (b :: rest)
    · rw [indexOfSublist, if_pos hp]
      constructor
      · intro h
        simp at h
      · intro h
        exact absurd (show occursAt pat (b :: rest) 0 by
          simpa [occursAt, List.drop_zero] using hp) (h 0)
    · rw [indexOfSublist, if_neg hp, Option.map_eq_none', ih]
      constructor
      · intro h j
        cases j with
        | zero => simpa [occursAt, List.drop_zero] using hp
        | succ k => simpa [occursAt, List.drop_succ_cons] using h k
      · intro h j
        have := h (j + 1)
        simpa [occursAt, List.drop_succ_cons] using this

/-- C3: the claim that the boundary at the lowest byte offset wins is
false: in `"x\n\ny\r\n\r\nz"` an LF LF occurs at offset 1, strictly
before the CRLF CRLF at offset 4, yet the frame is `"x\n\ny"` — the
bytes before the CRLF CRLF — not `"x"`. -/
theorem c3_counterexample :
    occursAt lflf [120, 10, 10, 121, 13, 10, 13, 10, 122] 1 ∧
    occursAt crlfcrlf [120, 10, 10, 121, 13, 10, 13, 10, 122] 4 ∧
    (1 : Nat) < 4 ∧
    eventScannerFunc [120, 10, 10, 121, 13, 10, 13, 10, 122] false =
      (5, some [120, 10, 10, 121]) ∧
    (eventScannerFunc [120, 10, 10, 121, 13, 10, 13, 10, 122] false).2 ≠
      some [120] := by
  refine ⟨?_, ?_, by decide, by decide, by decide⟩ <;> · unfold occursAt; decide

/-- C3 (amended): the three patterns are tried in the fixed order
CRLF CRLF, then LF LF, then CR CR; whichever pattern is tried first and
occurs anywhere in the buffer wins, the frame ending at the lowest
offset of that pattern — regardless of whether a later-tried pattern
occurs at a lower offset.  At equal offsets this still prefers
CRLF-pair, then LF-pair, then CR-pair. -/
theorem c3_amended (l : List Nat) (i : Nat) :
    (firstOccurAt crlfcrlf l i →
        eventScannerFunc l false = (i + 1, some (l.take i))) ∧
    ((∀ j, ¬ occursAt crlfcrlf l j) → firstOccurAt lflf l i →
        eventScannerFunc l false = (i + 1, some (l.take i))) ∧
    ((∀ j, ¬ occursAt crlfcrlf l j) → (∀ j, ¬ occursAt lflf l j) →
        firstOccurAt crcr l i →
        eventScannerFunc l false = (i + 1, some (l.take i))) := by
  have hcrlf : (crlfcrlf : List Nat) ≠ [] := by decide
  have hlf : (lflf : List Nat) ≠ [] := by decide
  have hcr : (crcr : List Nat) ≠ [] := by decide
  refine ⟨?_, ?_, ?_⟩
  · intro h
    have hidx := (indexOfSublist_eq_some_iff crlfcrlf hcrlf l i).mpr h
    simp [eventScannerFunc, hidx]
  · intro hnone h
    have h1 := (indexOfSublist_eq_none_iff crlfcrlf hcrlf l).mpr hnone
    have hidx := (indexOfSublist_eq_some_iff lflf hlf l i).mpr h
    simp [eventScannerFunc, h1, hidx]
  · intro hnone1 hnone2 h
    have h1 := (indexOfSublist_eq_none_iff crlfcrlf hcrlf l).mpr hnone1
    have h2 := (indexOfSublist_eq_none_iff lflf hlf l).mpr hnone2
    have hidx := (indexOfSublist_eq_some_iff crcr hcr l i).mpr h
    simp [eventScannerFunc, h1, h2, hidx]

/-- Witness for C3 (amended): in `"a\r\n\r\nb"` the CRLF CRLF first
occurs at offset 1, and the pre-EOF split yields the frame `"a"` with
advance 2. -/
theorem c3_amended_witness :
    eventScannerFunc [97, 13, 10, 13, 10, 98] false =
      (1 + 1, some (([97, 13, 10, 13, 10, 98] : List Nat).take 1)) :=
  (c3_amended [97, 13, 10, 13, 10, 98] 1).1
    (by unfold firstOccurAt occursAt; decide)

/-- A non-empty list stays non-empty under the CRLF → LF replacement. -/
theorem replCRLF_ne_nil (l : List Nat) (h : l ≠ []) : replCRLF l ≠ [] := by
  cases l with
  | nil => exact absurd rfl h
  | cons b rest =>
    cases rest with
    | nil => simp [replCRLF]
    | cons c rest' =>
      by_cases hbc : b = crByte ∧ c = lfByte <;> simp [replCRLF, hbc]

/-- A non-empty list stays non-empty under the lone-CR → LF
replacement. -/
theorem replCR_ne_nil (l : List Nat) (h : l ≠ []) : replCR l ≠ [] := by
  cases l with
  | nil => exact absurd rfl h
  | cons b rest =>
    cases rest with
    | nil => by_cases hb : b = crByte <;> simp [replCR, hb]
    | cons c rest' =>
      by_cases hb : b = crByte <;> by_cases hc : c = lfByte <;>
        simp [replCR, hb, hc]

/-- Line splitting is invariant under CRLF → LF replacement: collapsing
a CR LF separator pair into one LF removes only an empty subsequence,
which `bytes.FieldsFunc` drops anyway. -/
theorem fieldsFuncAux_replCRLF (l : List Nat) :
    ∀ cur, fieldsFuncAux cur (replCRLF l) = fieldsFuncAux cur l := by
  induction l using replCRLF.induct with
  | case1 => intro cur; rfl
  | case2 b => intro cur; rfl
  | case3 b c rest h ih =>
    obtain ⟨hb, hc⟩ := h
    subst hb; subst hc
    intro cur
    rw [show replCRLF (crByte :: lfByte :: rest) = lfByte :: replCRLF rest by
      simp [replCRLF]]
    by_cases hcur : cur.isEmpty <;>
      simp [fieldsFuncAux, isNewline, lfByte, crByte, hcur, ih]
  | case4 b c rest h ih =>
    intro cur
    rw [show replCRLF (b :: c :: rest) = b :: replCRLF (c :: rest) by
      simp [replCRLF, h]]
    by_cases hnb : isNewline b
    · by_cases hcur : cur.isEmpty <;> simp [fieldsFuncAux, hnb, hcur, ih]
    · simp [fieldsFuncAux, hnb, ih]

/-- Line splitting is invariant under lone-CR → LF replacement: both CR
and LF are line separators to `bytes.FieldsFunc`. -/
theorem fieldsFuncAux_replCR (l : List Nat) :
    ∀ cur, fieldsFuncAux cur (replCR l) = fieldsFuncAux cur l := by
  induction l using replCR.induct with
  | case1 => intro cur; rfl
  | case2 =>
    intro cur
    rw [show replCR [crByte] = [lfByte] by simp [replCR]]
    by_cases hcur : cur.isEmpty <;>
      simp [fieldsFuncAux, isNewline, lfByte, crByte, hcur]
  | case3 b hb =>
    intro cur
    rw [show replCR [b] = [b] by simp [replCR, hb]]
  | case4 rest ih =>
    intro cur
    rw [show replCR (crByte :: lfByte :: rest) =
        crByte :: lfByte :: replCR rest by simp [replCR]]
    by_cases hcur : cur.isEmpty <;>
      simp [fieldsFuncAux, isNewline, lfByte, crByte, hcur, ih]
  | case5 c rest hc ih =>
    intro cur
    rw [show replCR (crByte :: c :: rest) = lfByte :: replCR (c :: rest) by
      simp [replCR, hc]]
    by_cases hcur : cur.isEmpty <;>
      simp [fieldsFuncAux, isNewline, lfByte, crByte, hcur, ih]
  | case6 b c rest hb ih =>
    intro cur
    rw [show replCR (b :: c :: rest) = b :: replCR (c :: rest) by
      simp [replCR, hb]]
    by_cases hnb : isNewline b
    · by_cases hcur : cur.isEmpty <;> simp [fieldsFuncAux, hnb, hcur, ih]
    · simp [fieldsFuncAux, hnb, ih]

/-- A non-empty list's length is not below one. -/
theorem not_length_lt_one (l : List Nat) (h : l ≠ []) : ¬ l.length < 1 := by
  cases l with
  | nil => exact absurd rfl h
  | cons b rest => simp

/-- C10: decoding a non-empty frame is invariant under the
line-terminator convention — replacing every CRLF by LF, or every lone
CR by LF, yields the same decoded event, because line splitting treats
LF and CR identically and drops empty subsequences. -/
theorem c10_line_ending_invariance (frame : List Nat) (h : frame ≠ []) :
    readEvent (replCRLF frame) = readEvent frame ∧
    readEvent (replCR frame) = readEvent frame := by
  have h1 := not_length_lt_one _ (replCRLF_ne_nil frame h)
  have h2 := not_length_lt_one _ (replCR_ne_nil frame h)
  have hlen := not_length_lt_one frame h
  constructor
  · simp only [readEvent, frameLines, if_neg hlen, if_neg h1,
      fieldsFuncAux_replCRLF frame []]
  · simp only [readEvent, frameLines, if_neg hlen, if_neg h2,
      fieldsFuncAux_replCR frame []]

/-- Witness for C10 at the frame `"a\r\nb"`. -/
theorem c10_witness :
    readEvent (replCRLF [97, 13, 10, 98]) = readEvent [97, 13, 10, 98] ∧
    readEvent (replCR [97, 13, 10, 98]) = readEvent [97, 13, 10, 98] :=
  c10_line_ending_invariance [97, 13, 10, 98] (by decide)
